import Mathlib

/-!
Verification of the resilient initialization and geospatial aggregation pipeline
of the fishing-map component (`src/components/GoogleMapCard.tsx`).

The definitions below are a shallow embedding of the component's logic:
* `fetchEezBoundary` — the EEZ boundary fetch/validation (source lines 82-107),
* `readinessGateOpen` — the effect guard that starts map/search/monitor (lines 184-188),
* `loadGoogleMaps` — the script loader with its retry policy (lines 119-177),
* `getCurrentLocation` — geolocation acquisition with fallback (lines 190-261),
* `searchNearbyFishingPlaces` — the staggered category search, aggregation and
  ranking (lines 586-662),
* `calculateDistance` — the haversine distance (lines 712-722), over `ℝ`
  (the JavaScript source computes with IEEE doubles; the real-number model is
  the exact mathematical counterpart of that code).
-/

namespace FisherMan

open scoped List

/-- Geographic coordinate, the `UserLocation` shape of the source. -/
structure Coordinate where
  lat : ℝ
  lng : ℝ

/-- Validity invariant for coordinates from the data model of the spec. -/
def Coordinate.valid (p : Coordinate) : Prop :=
  -90 ≤ p.lat ∧ p.lat ≤ 90 ∧ -180 ≤ p.lng ∧ p.lng ≤ 180

/-- The Chennai anchor used as deterministic fallback location in the source. -/
def chennaiFallback : Coordinate := ⟨13.0827, 80.2707⟩

/-- A feature of the fetched GeoJSON feature collection.  Only the presence of
features matters to the validation logic; properties are carried opaquely. -/
structure GeoFeature where
  properties : List (String × String)
  deriving DecidableEq

/-- The parsed body of the boundary fetch response (`data` in the source). -/
structure FeatureCollection where
  type : String
  features : List GeoFeature
  deriving DecidableEq

/-- Outcome of the HTTP fetch for the EEZ boundary, as seen by the handler:
either the transport fails, or a response arrives with a status code and a
body that may fail to parse as JSON (`body = none`). -/
inductive FetchResponse
  | transportError
  | response (status : Nat) (body : Option FeatureCollection)

/-- Component state owned by the boundary loader: the stored boundary
(`eezBoundary`, `null` encoded as `none`) and whether the error path logged. -/
structure EezState where
  boundary : Option FeatureCollection
  loggedError : Bool

/-- Shallow embedding of `fetchEezBoundary` (source lines 82-107): non-2xx
status throws, malformed JSON throws, a body that is not a non-empty
`FeatureCollection` throws; every throw is caught by the surrounding
`try/catch`, which logs and stores `null`. -/
def fetchEezBoundary : FetchResponse → EezState
  | .transportError => ⟨none, true⟩
  | .response status body =>
    if 200 ≤ status ∧ status < 300 then
      match body with
      | none => ⟨none, true⟩
      | some data =>
        if data.type = "FeatureCollection" ∧ data.features ≠ [] then
          ⟨some data, false⟩
        else ⟨none, true⟩
    else ⟨none, true⟩

/-- The condition under which a fetch response is accepted by the validation
in the source: 2xx status, well-formed body, type `FeatureCollection`, and at
least one feature. -/
def acceptedResponse : FetchResponse → Prop
  | .transportError => False
  | .response status body =>
    (200 ≤ status ∧ status < 300) ∧
      ∃ data, body = some data ∧ data.type = "FeatureCollection" ∧ data.features ≠ []

instance : DecidablePred acceptedResponse := by
  intro r
  cases r with
  | transportError => exact isFalse (fun h => h)
  | response status body =>
    cases body with
    | none =>
      refine isFalse (fun h => ?_)
      obtain ⟨-, d, hd, -⟩ := h
      exact Option.noConfusion hd
    | some d =>
      by_cases h1 : (200 ≤ status ∧ status < 300) ∧ d.type = "FeatureCollection" ∧ d.features ≠ []
      · exact isTrue ⟨h1.1, d, rfl, h1.2⟩
      · refine isFalse (fun h => h1 ⟨h.1, ?_⟩)
        obtain ⟨-, d2, hd2, h3⟩ := h
        cases Option.some.injEq d2 d ▸ hd2.symm
        exact h3

/-- Shallow embedding of the readiness guard of the `useEffect` at source
lines 184-188: the map (and with it the nearby search and the boundary
monitor) is initialized only when the engine is loaded, a location is set,
the map container is mounted, and the boundary object is non-null. -/
def readinessGateOpen (isGoogleMapsLoaded : Bool) (userLocation : Option Coordinate)
    (mapMounted : Bool) (eezBoundary : Option FeatureCollection) : Bool :=
  isGoogleMapsLoaded && userLocation.isSome && mapMounted && eezBoundary.isSome

/-- What the script element created by one load attempt does: it errors, or
its load event fires and after the 100 ms settle delay the API surface is
either present or absent. -/
inductive ScriptEvent
  | scriptError
  | loadFires (apiPresent : Bool)

/-- Observable outcome of one loader run: the engine became loaded, a
terminal error message was stored, or the run is stuck in the 100 ms
`checkLoaded` polling interval that never resolves. -/
inductive LoadOutcome
  | loaded
  | errored (msg : String)
  | pollingForever
  deriving DecidableEq

/-- Observable trace of a loader run: its outcome, how many script elements
were created (load attempts), and how many 2000 ms retry waits elapsed. -/
structure LoadTrace where
  outcome : LoadOutcome
  attempts : Nat
  retryWaits : Nat
  deriving DecidableEq

/-- Shallow embedding of `loadGoogleMaps` (source lines 119-177).
`engineReady` models the `window.google && window.google.maps` check at line
121.  `inDom` is the maps script element already in `document.head`, if any,
together with what that element (eventually) does: the already-loading
branch at lines 127-137 polls every 100 ms until the engine appears, which
happens only if that element eventually fires `load` with the API surface
attached — an element whose `onerror` fired, or whose `load` fired without
the API, never makes the engine appear, so the poll never resolves.
`apiKeyPresent` models the credential check at lines 139-145.  Otherwise a
new script element (number `nextScript`, behaving as `env nextScript`) is
appended to the document.  On `onload`, after the settle delay, an absent
API surface stores a terminal error.  On `onerror`, while the captured
`retryCount` is below 3, the code schedules a 2000 ms wait and re-enters
`loadGoogleMaps`; the failed element is never removed from `document.head`,
so that re-entry takes the already-loading branch, and the `retryCount`
read and re-captured is the stale render-captured value of the closure that
installed the handler (the functional `setRetryCount` updates React state,
but this chain never reads it), so it is passed on unchanged. -/
def loadGoogleMaps (env : Nat → ScriptEvent) (engineReady : Bool)
    (inDom : Option ScriptEvent) (apiKeyPresent : Bool)
    (nextScript retryCount : Nat) : LoadTrace :=
  if engineReady then ⟨.loaded, 0, 0⟩
  else
    match inDom with
    | some ev =>
      match ev with
      | .loadFires true => ⟨.loaded, 0, 0⟩
      | .loadFires false => ⟨.pollingForever, 0, 0⟩
      | .scriptError => ⟨.pollingForever, 0, 0⟩
    | none =>
      if apiKeyPresent then
        match env nextScript with
        | .loadFires true => ⟨.loaded, 1, 0⟩
        | .loadFires false => ⟨.errored "Google Maps loaded but API not available", 1, 0⟩
        | .scriptError =>
          if retryCount < 3 then
            let t := loadGoogleMaps env false (some .scriptError) apiKeyPresent
              (nextScript + 1) retryCount
            ⟨t.outcome, t.attempts + 1, t.retryWaits + 1⟩
          else
            ⟨.errored "Failed to load Google Maps after 3 attempts. Please check your internet connection and API key.", 1, 0⟩
      else
        ⟨.errored "Google Maps API key is not configured. Please add NEXT_PUBLIC_GOOGLE_MAPS_API_KEY to your environment variables.", 0, 0⟩
  termination_by (if inDom.isSome then 0 else 1 : Nat)
  decreasing_by simp_all

/-- Classification of a geolocation acquisition outcome. -/
inductive LocOutcome
  | measured
  | permission_denied
  | position_unavailable
  | timeout
  | unsupported
  | unknown
  deriving DecidableEq

/-- Input to one invocation of `getCurrentLocation`: the browser lacks
geolocation support, or the position callback fires, or the error callback
fires with a numeric code (1 = PERMISSION_DENIED, 2 = POSITION_UNAVAILABLE,
3 = TIMEOUT in the Geolocation API). -/
inductive GeoCall
  | unsupported
  | position (lat lng : ℝ)
  | geoError (code : Nat)

/-- Observable result of one `getCurrentLocation` call: the coordinate stored
into `userLocation`, the outcome classification, the number of toast
notifications fired during the call, and the stored error message. -/
structure LocationResult where
  location : Coordinate
  outcome : LocOutcome
  toasts : Nat
  errorMessage : Option String

/-- Shallow embedding of `getCurrentLocation` (source lines 190-261).  Every
failure branch stores the Chennai fallback, fires exactly one toast, and sets
an error message; the success branch stores the measured position and fires
exactly one success toast. -/
def getCurrentLocation : GeoCall → LocationResult
  | .unsupported =>
    ⟨chennaiFallback, .unsupported, 1,
      some "Geolocation is not supported by this browser. Using default location (Chennai)."⟩
  | .position lat lng => ⟨⟨lat, lng⟩, .measured, 1, none⟩
  | .geoError code =>
    match code with
    | 1 =>
      ⟨chennaiFallback, .permission_denied, 1,
        some "Location access denied. Please allow location access and try again."⟩
    | 2 =>
      ⟨chennaiFallback, .position_unavailable, 1,
        some "Location information unavailable. Using Chennai as default."⟩
    | 3 =>
      ⟨chennaiFallback, .timeout, 1,
        some "Location request timed out. Using Chennai as default."⟩
    | _ =>
      ⟨chennaiFallback, .unknown, 1,
        some "Unknown location error. Using Chennai as default."⟩

/-- Real-number model of `Math.atan2 y x` for finite arguments: the angle of
the point `(x, y)`, in `(-π, π]`.  Only the branches with `0 ≤ x` and
`0 ≤ y` are exercised by `calculateDistance`. -/
noncomputable def atan2 (y x : ℝ) : ℝ :=
  if 0 < x then Real.arctan (y / x)
  else if x < 0 ∧ 0 ≤ y then Real.arctan (y / x) + Real.pi
  else if x < 0 ∧ y < 0 then Real.arctan (y / x) - Real.pi
  else if x = 0 ∧ 0 < y then Real.pi / 2
  else if x = 0 ∧ y < 0 then -(Real.pi / 2)
  else 0

/-- Shallow embedding of `calculateDistance` (source lines 712-722): the
haversine great-circle distance with Earth radius 6371 km. -/
noncomputable def calculateDistance (point1 point2 : Coordinate) : ℝ :=
  let R : ℝ := 6371
  let dLat := (point2.lat - point1.lat) * Real.pi / 180
  let dLng := (point2.lng - point1.lng) * Real.pi / 180
  let a :=
    Real.sin (dLat / 2) * Real.sin (dLat / 2) +
      Real.cos (point1.lat * Real.pi / 180) * Real.cos (point2.lat * Real.pi / 180) *
        Real.sin (dLng / 2) * Real.sin (dLng / 2)
  let c := 2 * atan2 (Real.sqrt a) (Real.sqrt (1 - a))
  R * c

/-- The haversine term `a` of `calculateDistance`, named for the proofs. -/
noncomputable def havTerm (point1 point2 : Coordinate) : ℝ :=
  Real.sin ((point2.lat - point1.lat) * Real.pi / 180 / 2) *
      Real.sin ((point2.lat - point1.lat) * Real.pi / 180 / 2) +
    Real.cos (point1.lat * Real.pi / 180) * Real.cos (point2.lat * Real.pi / 180) *
      Real.sin ((point2.lng - point1.lng) * Real.pi / 180 / 2) *
      Real.sin ((point2.lng - point1.lng) * Real.pi / 180 / 2)

/-- The POI category enumeration (`FishingPOI.type` in the source). -/
inductive POIType
  | fishing_spot
  | marina
  | bait_shop
  | safety_station
  | port
  | fishing_charter
  | boat_ramp
  deriving DecidableEq

/-- One entry of the `searches` array: a keyword string and a category. -/
structure SearchCategory where
  keyword : String
  type : POIType
  deriving DecidableEq

/-- The fixed category list of `searchNearbyFishingPlaces` (source lines
587-596). -/
def searches : List SearchCategory :=
  [⟨"fishing marina harbor", .marina⟩,
   ⟨"fishing spot pier jetty", .fishing_spot⟩,
   ⟨"bait tackle fishing shop", .bait_shop⟩,
   ⟨"coast guard marine safety", .safety_station⟩,
   ⟨"port harbor dock", .port⟩,
   ⟨"fishing charter boat tours", .fishing_charter⟩,
   ⟨"boat ramp launch", .boat_ramp⟩]

/-- One raw result of a provider nearby-search query, with the optional
fields the mapping code reads.  `geometry` is the optional
`place.geometry.location`. -/
structure PlaceResult where
  name : Option String
  geometry : Option Coordinate
  vicinity : Option String
  rating : Option ℝ
  place_id : Option String
  price_level : Option Nat
  photos : List String

/-- The `FishingPOI` record of the source. -/
structure FishingPOI where
  id : Nat
  name : String
  type : POIType
  lat : ℝ
  lng : ℝ
  distance : ℝ
  description : String
  rating : Option ℝ
  place_id : Option String
  price_level : Option Nat
  photos : List String

/-- How one category query can end, as observed by the dispatch code: the
callback fires with status OK and a (possibly null) results array, or with a
non-OK status, or `nearbySearch` throws synchronously. -/
inductive SearchOutcome
  | ok (results : List PlaceResult)
  | okNullResults
  | nonOkStatus (status : String)
  | transportThrow

/-- The `PointOfInterest` built from provider result `place` found at
position `placeIndex` of category `index` (source lines 617-634). -/
noncomputable def poiOf (origin : Coordinate) (index : Nat) (cat : SearchCategory)
    (placeIndex : Nat) (place : PlaceResult) (loc : Coordinate) : FishingPOI :=
  ⟨index * 10 + placeIndex,
    place.name.getD "Unknown Location",
    cat.type,
    loc.lat, loc.lng,
    calculateDistance origin loc,
    place.vicinity.getD "No description available",
    place.rating, place.place_id, place.price_level,
    place.photos.take 1⟩

/-- POIs contributed by one category query: on OK status, the first 3 results
are enumerated and each result that has a geometry is mapped through `poiOf`
with its position within the slice; every other outcome contributes none. -/
noncomputable def categoryPOIs (origin : Coordinate) (index : Nat) (cat : SearchCategory) :
    SearchOutcome → List FishingPOI
  | .ok results =>
    ((results.take 3).enum).filterMap fun pr =>
      match pr.2.geometry with
      | some loc => some (poiOf origin index cat pr.1 pr.2 loc)
      | none => none
  | .okNullResults => []
  | .nonOkStatus _ => []
  | .transportThrow => []

/-- All POIs collected by one run, in discovery order: categories in dispatch
order, and within a category in result order. -/
noncomputable def collectPOIs (origin : Coordinate) (cats : List SearchCategory)
    (responses : List SearchOutcome) : List FishingPOI :=
  ((cats.zip responses).enum).flatMap fun e => categoryPOIs origin e.1 e.2.1 e.2.2

/-- Insert `x` into `l` after every element whose key is at most `key x` —
the insertion step of a stable ascending sort by `key`. -/
def insertSorted {α β : Type} [LinearOrder β] (key : α → β) (x : α) : List α → List α
  | [] => [x]
  | y :: ys => if key x < key y then x :: y :: ys else y :: insertSorted key x ys

/-- Stable ascending sort by `key`: the semantics of the JavaScript
`allPOIs.sort((a, b) => a.distance - b.distance)` call, `Array.prototype.sort`
being stable. -/
def stableSortBy {α β : Type} [LinearOrder β] (key : α → β) (l : List α) : List α :=
  l.foldl (fun acc x => insertSorted key x acc) []

/-- The ranking step of the orchestrator: stable ascending sort by distance. -/
noncomputable def sortPOIs (l : List FishingPOI) : List FishingPOI :=
  stableSortBy (fun p => p.distance) l

/-- Mutable state of one orchestration run: the completion counter, the
accumulator `allPOIs`, and the published ranked sequence (`fishingPOIs`,
`none` until `setFishingPOIs` runs). -/
structure RunState where
  searchesCompleted : Nat
  allPOIs : List FishingPOI
  fishingPOIs : Option (List FishingPOI)

/-- One callback (or catch handler) of the search loop, for the category at
`e.1`: the completion counter is incremented unconditionally, the category's
POIs are appended, and when the counter reaches `total` the accumulated POIs
are sorted and published (source lines 611-659). -/
noncomputable def searchStep (origin : Coordinate) (total : Nat) (s : RunState)
    (e : Nat × SearchCategory × SearchOutcome) : RunState :=
  let completed := s.searchesCompleted + 1
  let pois := s.allPOIs ++ categoryPOIs origin e.1 e.2.1 e.2.2
  if completed = total then ⟨completed, pois, some (sortPOIs pois)⟩
  else ⟨completed, pois, s.fishingPOIs⟩

/-- Shallow embedding of one run of `searchNearbyFishingPlaces` (source lines
586-662) in which the responses listed in `responses` have arrived, in
dispatch order, for the categories of `cats`.  The completion target is the
full category count even when fewer responses have arrived yet. -/
noncomputable def searchNearbyFishingPlaces (origin : Coordinate) (cats : List SearchCategory)
    (responses : List SearchOutcome) : RunState :=
  ((cats.zip responses).enum).foldl (searchStep origin cats.length) ⟨0, [], none⟩

/-- Dot product on ℝ³, used to relate the haversine term to the central
angle between unit vectors. -/
def dot3 (u v : ℝ × ℝ × ℝ) : ℝ :=
  u.1 * v.1 + u.2.1 * v.2.1 + u.2.2 * v.2.2

/-- Determinant of three ℝ³ vectors (scalar triple product). -/
def det3 (u v w : ℝ × ℝ × ℝ) : ℝ :=
  u.1 * (v.2.1 * w.2.2 - v.2.2 * w.2.1) - u.2.1 * (v.1 * w.2.2 - v.2.2 * w.1) +
    u.2.2 * (v.1 * w.2.1 - v.2.1 * w.1)

/-- Unit vector on the sphere for a coordinate (angles of the haversine
formula, latitudes and longitudes converted to radians). -/
noncomputable def uvec (p : Coordinate) : ℝ × ℝ × ℝ :=
  (Real.cos (p.lat * Real.pi / 180) * Real.cos (p.lng * Real.pi / 180),
    Real.cos (p.lat * Real.pi / 180) * Real.sin (p.lng * Real.pi / 180),
    Real.sin (p.lat * Real.pi / 180))

/-- Number of results of one category query that the aggregation actually
maps to POIs: among the first 3 results of an OK query, those that carry a
geometry. -/
def countGeoms : SearchOutcome → Nat
  | .ok results => ((results.take 3).filter (fun pl => pl.geometry.isSome)).length
  | .okNullResults => 0
  | .nonOkStatus _ => 0
  | .transportThrow => 0

/-- A provider result with a geometry, for the concrete scenarios. -/
noncomputable def examplePlace : PlaceResult :=
  ⟨some "Marina Beach", some ⟨13.05, 80.28⟩, some "Chennai", none, some "place-a", none, []⟩

/-- A second provider result with a geometry. -/
noncomputable def examplePlaceB : PlaceResult :=
  ⟨some "Royapuram Harbor", some ⟨13.01, 80.29⟩, none, none, some "place-b", none, []⟩

/-- A provider result lacking a geometry (skipped by the mapping). -/
noncomputable def noGeomPlace : PlaceResult :=
  ⟨some "No Geometry", none, none, none, some "place-c", none, []⟩

/-- An OK query returning two mappable results. -/
noncomputable def exampleOkTwo : SearchOutcome := .ok [examplePlace, examplePlaceB]

/-- The response pattern of the seven-category scenario: category index 3
fails with a transport error, all others return 2 results. -/
noncomputable def exampleResponses : List SearchOutcome :=
  [exampleOkTwo, exampleOkTwo, exampleOkTwo, .transportThrow,
    exampleOkTwo, exampleOkTwo, exampleOkTwo]

/-- The single result at (13.10, 80.30) of the end-to-end scenario. -/
noncomputable def marinaPlace : PlaceResult :=
  ⟨some "Chennai Marina", some ⟨13.10, 80.30⟩, none, none, none, none, []⟩

/-! ### Properties of the stable sort -/

theorem insertSorted_perm {α β : Type} [LinearOrder β] (key : α → β) (x : α) (l : List α) :
    insertSorted key x l ~ x :: l := by
  induction l with
  | nil => exact List.Perm.refl _
  | cons y ys ih =>
    simp only [insertSorted]
    split
    · exact List.Perm.refl _
    · exact (ih.cons y).trans (List.Perm.swap x y ys)

theorem stableSortBy_perm_aux {α β : Type} [LinearOrder β] (key : α → β) :
    ∀ l acc : List α,
      l.foldl (fun acc x => insertSorted key x acc) acc ~ acc ++ l := by
  intro l
  induction l with
  | nil => intro acc; simp
  | cons x xs ih =>
    intro acc
    simp only [List.foldl_cons]
    refine (ih (insertSorted key x acc)).trans ?_
    calc insertSorted key x acc ++ xs
        ~ (x :: acc) ++ xs := (insertSorted_perm key x acc).append_right xs
      _ ~ acc ++ x :: xs := List.perm_middle.symm

theorem stableSortBy_perm {α β : Type} [LinearOrder β] (key : α → β) (l : List α) :
    stableSortBy key l ~ l := by
  simpa [stableSortBy] using stableSortBy_perm_aux key l []

theorem mem_stableSortBy {α β : Type} [LinearOrder β] (key : α → β) (l : List α) (a : α) :
    a ∈ stableSortBy key l ↔ a ∈ l :=
  (stableSortBy_perm key l).mem_iff

theorem length_stableSortBy {α β : Type} [LinearOrder β] (key : α → β) (l : List α) :
    (stableSortBy key l).length = l.length :=
  (stableSortBy_perm key l).length_eq

theorem pairwise_insertSorted {α β : Type} [LinearOrder β] (key : α → β) (R : α → α → Prop)
    (x : α) (acc : List α)
    (hacc : acc.Pairwise (fun a b => key a ≤ key b ∧ (key b ≤ key a → R a b)))
    (hx : ∀ a ∈ acc, R a x) :
    (insertSorted key x acc).Pairwise (fun a b => key a ≤ key b ∧ (key b ≤ key a → R a b)) := by
  induction acc with
  | nil => simp [insertSorted]
  | cons y ys ih =>
    rw [List.pairwise_cons] at hacc
    obtain ⟨hy, hys⟩ := hacc
    simp only [insertSorted]
    split
    · rename_i hlt
      refine List.pairwise_cons.mpr ⟨?_, List.pairwise_cons.mpr ⟨hy, hys⟩⟩
      intro z hz
      rcases List.mem_cons.mp hz with rfl | hz2
      · exact ⟨le_of_lt hlt, fun h => absurd hlt (not_lt.mpr h)⟩
      · have hyz := hy z hz2
        exact ⟨le_trans (le_of_lt hlt) hyz.1,
          fun h => absurd (lt_of_lt_of_le hlt hyz.1) (not_lt.mpr h)⟩
    · rename_i hnlt
      have hyx : key y ≤ key x := le_of_not_lt hnlt
      refine List.pairwise_cons.mpr
        ⟨?_, ih hys (fun a ha => hx a (List.mem_cons_of_mem y ha))⟩
      intro z hz
      have hz3 : z = x ∨ z ∈ ys := by
        have := (insertSorted_perm key x ys).mem_iff.mp hz
        simpa using this
      rcases hz3 with rfl | hz2
      · exact ⟨hyx, fun _ => hx y (List.mem_cons_self y ys)⟩
      · exact hy z hz2

/-- The fundamental property of the stable sort: the output is weakly sorted
by `key`, and any two elements with equal keys keep whatever relation `R`
held pairwise along the input order. -/
theorem pairwise_stableSortBy {α β : Type} [LinearOrder β] (key : α → β) (R : α → α → Prop)
    (l : List α) (hl : l.Pairwise R) :
    (stableSortBy key l).Pairwise
      (fun a b => key a ≤ key b ∧ (key b ≤ key a → R a b)) := by
  suffices h : ∀ l acc : List α, l.Pairwise R →
      acc.Pairwise (fun a b => key a ≤ key b ∧ (key b ≤ key a → R a b)) →
      (∀ x ∈ l, ∀ a ∈ acc, R a x) →
      (l.foldl (fun acc x => insertSorted key x acc) acc).Pairwise
        (fun a b => key a ≤ key b ∧ (key b ≤ key a → R a b)) by
    exact h l [] hl (by simp) (by simp)
  intro l
  induction l with
  | nil => intro acc _ hacc _; simpa using hacc
  | cons x xs ih =>
    intro acc hl2 hacc hcross
    rw [List.pairwise_cons] at hl2
    simp only [List.foldl_cons]
    refine ih (insertSorted key x acc) hl2.2
      (pairwise_insertSorted key R x acc hacc
        (fun a ha => hcross x (List.mem_cons_self x xs) a ha)) ?_
    intro z hz a ha
    have ha2 : a = x ∨ a ∈ acc := by
      have := (insertSorted_perm key x acc).mem_iff.mp ha
      simpa using this
    rcases ha2 with rfl | ha2
    · exact hl2.1 z hz
    · exact hcross z (List.mem_cons_of_mem x hz) a ha2

/-! ### Structure of the collected POI list -/

theorem pairwise_fst_lt_enumFrom {α : Type} (n : Nat) (l : List α) :
    (l.enumFrom n).Pairwise (fun a b => a.1 < b.1) := by
  induction l generalizing n with
  | nil => simp
  | cons x xs ih =>
    rw [List.enumFrom_cons]
    refine List.pairwise_cons.mpr ⟨?_, ih (n + 1)⟩
    intro z hz
    have : n + 1 ≤ z.1 := by
      rcases z with ⟨m, y⟩
      exact (List.mem_enumFrom hz).1
    omega

theorem pairwise_fst_lt_enum {α : Type} (l : List α) :
    l.enum.Pairwise (fun a b => a.1 < b.1) := by
  rw [List.enum]
  exact pairwise_fst_lt_enumFrom 0 l

/-- Provenance of every collected POI: it arises from an OK category at some
index `i`, from a result with geometry at position `k` among the first three
results, and is exactly the mapped `poiOf`. -/
theorem mem_collectPOIs_iff (origin : Coordinate) (cats : List SearchCategory)
    (rs : List SearchOutcome) (p : FishingPOI) :
    p ∈ collectPOIs origin cats rs ↔
      ∃ i cat results k place loc,
        (cats.zip rs)[i]? = some (cat, .ok results) ∧
        (results.take 3)[k]? = some place ∧
        place.geometry = some loc ∧
        p = poiOf origin i cat k place loc := by
  unfold collectPOIs
  rw [List.mem_flatMap]
  constructor
  · rintro ⟨⟨i, cat, r⟩, he, hp⟩
    rw [List.mem_enum_iff_getElem?] at he
    cases r with
    | ok results =>
      simp only [categoryPOIs] at hp
      rw [List.mem_filterMap] at hp
      obtain ⟨⟨k, place⟩, hpr, hf⟩ := hp
      rw [List.mem_enum_iff_getElem?] at hpr
      cases hg : place.geometry with
      | none => simp [hg] at hf
      | some loc =>
        simp only [hg] at hf
        exact ⟨i, cat, results, k, place, loc, he, hpr, hg, (Option.some_inj.mp hf).symm⟩
    | okNullResults => simp [categoryPOIs] at hp
    | nonOkStatus s => simp [categoryPOIs] at hp
    | transportThrow => simp [categoryPOIs] at hp
  · rintro ⟨i, cat, results, k, place, loc, hi, hk, hg, rfl⟩
    refine ⟨(i, cat, .ok results), ?_, ?_⟩
    · rw [List.mem_enum_iff_getElem?]
      exact hi
    · simp only [categoryPOIs]
      rw [List.mem_filterMap]
      refine ⟨(k, place), ?_, ?_⟩
      · rw [List.mem_enum_iff_getElem?]
        exact hk
      · simp [hg]

theorem id_bounds_of_mem_categoryPOIs (origin : Coordinate) (i : Nat) (cat : SearchCategory)
    (r : SearchOutcome) (p : FishingPOI) (hp : p ∈ categoryPOIs origin i cat r) :
    i * 10 ≤ p.id ∧ p.id < i * 10 + 3 := by
  cases r with
  | ok results =>
    simp only [categoryPOIs] at hp
    rw [List.mem_filterMap] at hp
    obtain ⟨⟨k, place⟩, hpr, hf⟩ := hp
    rw [List.mem_enum_iff_getElem?] at hpr
    have hk3 : k < 3 := by
      have h1 := (List.getElem?_eq_some.mp hpr).1
      have h2 : (results.take 3).length ≤ 3 := by
        rw [List.length_take]
        omega
      omega
    cases hg : place.geometry with
    | none => simp [hg] at hf
    | some loc =>
      simp only [hg] at hf
      have : p.id = i * 10 + k := by
        rw [← Option.some_inj.mp hf]
        rfl
      omega
  | okNullResults => simp [categoryPOIs] at hp
  | nonOkStatus s => simp [categoryPOIs] at hp
  | transportThrow => simp [categoryPOIs] at hp

theorem pairwise_id_lt_categoryPOIs (origin : Coordinate) (i : Nat) (cat : SearchCategory)
    (r : SearchOutcome) :
    (categoryPOIs origin i cat r).Pairwise (fun p q => p.id < q.id) := by
  cases r with
  | ok results =>
    simp only [categoryPOIs]
    rw [List.pairwise_filterMap]
    refine (pairwise_fst_lt_enum (results.take 3)).imp ?_
    rintro ⟨k1, pl1⟩ ⟨k2, pl2⟩ hk x hx y hy
    cases hg1 : pl1.geometry with
    | none => simp [hg1] at hx
    | some loc1 =>
      cases hg2 : pl2.geometry with
      | none => simp [hg2] at hy
      | some loc2 =>
        simp only [hg1, Option.mem_some_iff] at hx
        simp only [hg2, Option.mem_some_iff] at hy
        have hx2 : x.id = i * 10 + k1 := by rw [← hx]; rfl
        have hy2 : y.id = i * 10 + k2 := by rw [← hy]; rfl
        omega
  | okNullResults => simp [categoryPOIs]
  | nonOkStatus s => simp [categoryPOIs]
  | transportThrow => simp [categoryPOIs]

theorem pairwise_flatMap_of {α γ : Type} (g : α → List γ) (S : α → α → Prop)
    (R : γ → γ → Prop) (L : List α) (hL : L.Pairwise S)
    (hin : ∀ a ∈ L, (g a).Pairwise R)
    (hcross : ∀ a b, S a b → ∀ p ∈ g a, ∀ q ∈ g b, R p q) :
    (L.flatMap g).Pairwise R := by
  induction L with
  | nil => simp
  | cons a L ih =>
    rw [List.pairwise_cons] at hL
    rw [List.flatMap_cons, List.pairwise_append]
    refine ⟨hin a (List.mem_cons_self a L),
      ih hL.2 (fun b hb => hin b (List.mem_cons_of_mem a hb)), ?_⟩
    intro p hp q hq
    rw [List.mem_flatMap] at hq
    obtain ⟨b, hb, hq⟩ := hq
    exact hcross a b (hL.1 b hb) p hp q hq

/-- Collected POIs have strictly increasing ids along discovery order; in
particular the ids of one run are pairwise distinct. -/
theorem pairwise_id_lt_collectPOIs (origin : Coordinate) (cats : List SearchCategory)
    (rs : List SearchOutcome) :
    (collectPOIs origin cats rs).Pairwise (fun p q => p.id < q.id) := by
  unfold collectPOIs
  refine pairwise_flatMap_of _ (fun a b => a.1 < b.1) _ _
    (pairwise_fst_lt_enum (cats.zip rs)) (fun e _ => pairwise_id_lt_categoryPOIs _ _ _ _) ?_
  rintro ⟨i, ci, ri⟩ ⟨j, cj, rj⟩ hij p hp q hq
  have h1 := id_bounds_of_mem_categoryPOIs origin i ci ri p hp
  have h2 := id_bounds_of_mem_categoryPOIs origin j cj rj q hq
  simp only at h1 h2 hij
  omega

/-! ### The completion counter and the publication step -/

theorem searchStep_searchesCompleted (origin : Coordinate) (total : Nat) (s : RunState)
    (e : Nat × SearchCategory × SearchOutcome) :
    (searchStep origin total s e).searchesCompleted = s.searchesCompleted + 1 := by
  simp only [searchStep]
  split <;> rfl

theorem searchStep_allPOIs (origin : Coordinate) (total : Nat) (s : RunState)
    (e : Nat × SearchCategory × SearchOutcome) :
    (searchStep origin total s e).allPOIs
      = s.allPOIs ++ categoryPOIs origin e.1 e.2.1 e.2.2 := by
  simp only [searchStep]
  split <;> rfl

theorem foldl_searchStep_completed (origin : Coordinate) (total : Nat) :
    ∀ (L : List (Nat × SearchCategory × SearchOutcome)) (s : RunState),
      (L.foldl (searchStep origin total) s).searchesCompleted
        = s.searchesCompleted + L.length := by
  intro L
  induction L with
  | nil => intro s; simp
  | cons e L ih =>
    intro s
    rw [List.foldl_cons, ih, searchStep_searchesCompleted, List.length_cons]
    omega

theorem foldl_searchStep_allPOIs (origin : Coordinate) (total : Nat) :
    ∀ (L : List (Nat × SearchCategory × SearchOutcome)) (s : RunState),
      (L.foldl (searchStep origin total) s).allPOIs
        = s.allPOIs ++ L.flatMap (fun e => categoryPOIs origin e.1 e.2.1 e.2.2) := by
  intro L
  induction L with
  | nil => intro s; simp
  | cons e L ih =>
    intro s
    rw [List.foldl_cons, ih, searchStep_allPOIs, List.flatMap_cons, List.append_assoc]

theorem foldl_searchStep_published_none (origin : Coordinate) (total : Nat) :
    ∀ (L : List (Nat × SearchCategory × SearchOutcome)) (s : RunState),
      s.fishingPOIs = none → s.searchesCompleted + L.length < total →
      (L.foldl (searchStep origin total) s).fishingPOIs = none := by
  intro L
  induction L with
  | nil => intro s h _; simpa using h
  | cons e L ih =>
    intro s hfish hlt
    rw [List.foldl_cons]
    rw [List.length_cons] at hlt
    refine ih _ ?_ ?_
    · simp only [searchStep]
      rw [if_neg (by omega)]
      exact hfish
    · rw [searchStep_searchesCompleted]
      omega

theorem foldl_searchStep_published_some (origin : Coordinate) (total : Nat) :
    ∀ (L : List (Nat × SearchCategory × SearchOutcome)) (s : RunState),
      s.searchesCompleted + L.length = total → L ≠ [] →
      (L.foldl (searchStep origin total) s).fishingPOIs
        = some (sortPOIs (s.allPOIs ++
            L.flatMap (fun e => categoryPOIs origin e.1 e.2.1 e.2.2))) := by
  intro L
  induction L with
  | nil => intro s _ h; exact absurd rfl h
  | cons e L ih =>
    intro s htot _
    rw [List.length_cons] at htot
    rw [List.foldl_cons]
    cases L with
    | nil =>
      simp only [List.length_nil] at htot
      simp only [List.foldl_nil, searchStep]
      rw [if_pos (by omega)]
      simp
    | cons e2 L2 =>
      have hne : e2 :: L2 ≠ ([] : List (Nat × SearchCategory × SearchOutcome)) := by
        simp
      rw [ih _ ?_ hne]
      · rw [searchStep_allPOIs]
        simp only [List.flatMap_cons, List.append_assoc]
      · rw [searchStep_searchesCompleted]
        rw [List.length_cons] at htot ⊢
        omega

/-! ### Claim C7: uniform boundary validation -/

/-- C7: the boundary load stores a boundary exactly for a 2xx response whose
body parses to a feature collection with at least one feature; every other
outcome (transport error, non-2xx status, malformed body, wrong type, zero
features) uniformly stores `none` and logs the cause, and the handler always
returns normally (it is a total function into `EezState`). -/
theorem boundaryValidationUniform (r : FetchResponse) :
    ((fetchEezBoundary r).boundary.isSome ↔ acceptedResponse r) ∧
    (¬ acceptedResponse r →
      (fetchEezBoundary r).boundary = none ∧ (fetchEezBoundary r).loggedError = true) ∧
    (∀ data, (fetchEezBoundary r).boundary = some data →
      data.type = "FeatureCollection" ∧ data.features ≠ []) := by
  cases r with
  | transportError =>
    refine ⟨by simp [fetchEezBoundary, acceptedResponse], fun _ => ⟨rfl, rfl⟩, ?_⟩
    intro data h
    exact absurd h (by simp [fetchEezBoundary])
  | response status body =>
    by_cases hok : 200 ≤ status ∧ status < 300
    · cases body with
      | none =>
        refine ⟨by simp [fetchEezBoundary, acceptedResponse, hok], ?_, ?_⟩
        · intro _
          simp [fetchEezBoundary, hok]
        · intro data h
          exact absurd h (by simp [fetchEezBoundary, hok])
      | some d =>
        by_cases hval : d.type = "FeatureCollection" ∧ d.features ≠ []
        · refine ⟨?_, ?_, ?_⟩
          · simp [fetchEezBoundary, acceptedResponse, hok, hval]
          · intro hacc
            exact absurd ⟨hok, d, rfl, hval⟩ hacc
          · intro data h
            simp only [fetchEezBoundary, if_pos hok, if_pos hval] at h
            cases Option.some_inj.mp h
            exact hval
        · refine ⟨?_, ?_, ?_⟩
          · simp only [fetchEezBoundary, if_pos hok, if_neg hval]
            simp only [acceptedResponse, Option.isSome_none, Bool.false_eq_true, false_iff]
            rintro ⟨-, d2, hd2, hv2⟩
            cases Option.some_inj.mp hd2.symm
            exact hval hv2
          · intro _
            simp [fetchEezBoundary, hok, hval]
          · intro data h
            exact absurd h (by simp [fetchEezBoundary, hok, hval])
    · refine ⟨?_, ?_, ?_⟩
      · simp [fetchEezBoundary, acceptedResponse, hok]
      · intro _
        simp [fetchEezBoundary, hok]
      · intro data h
        exact absurd h (by simp [fetchEezBoundary, hok])

/-! ### Claim C1: the readiness gate on boundary failure -/

/-- C1: behavior of the code at the failing input.  A failed boundary fetch
stores `none`, and with the engine loaded, a location settled (the fallback,
so the location slot always settles to `some`), and the map container
mounted, the readiness guard still evaluates to `false`: `initializeMap`,
and with it the nearby search and the boundary monitor, never start.  The
claim (and the spec) say the gate must open regardless of boundary
failure. -/
theorem readinessGate_blocked_on_boundary_failure :
    (fetchEezBoundary .transportError).boundary = none ∧
    (getCurrentLocation (.geoError 3)).location = chennaiFallback ∧
    readinessGateOpen true (some ((getCurrentLocation (.geoError 3)).location)) true
      (fetchEezBoundary .transportError).boundary = false :=
  ⟨rfl, rfl, rfl⟩

/-! ### Claim C4: loader retry exhaustion -/

/-- C4: behavior of the loader at the claimed inputs, from a fresh start
(engine absent, no script in the DOM, API key present, `retryCount = 0`).
Under a permanent script failure the loader creates one script element,
waits one 2000 ms retry delay, and the re-entered call finds the failed
element still in `document.head` and stalls forever in the `checkLoaded`
poll: one attempt, one wait, no terminal state and no further attempts.
With two failures followed by an environment in which any further script
would succeed, it stalls the same way after one attempt and never reaches
the loaded state.  The terminal message claiming 3 attempts is unreachable
from a fresh start for every environment. -/
theorem engineLoaderAttemptCounts :
    loadGoogleMaps (fun _ => .scriptError) false none true 0 0
      = ⟨.pollingForever, 1, 1⟩ ∧
    loadGoogleMaps (fun n => if n < 2 then .scriptError else .loadFires true)
        false none true 0 0
      = ⟨.pollingForever, 1, 1⟩ ∧
    (∀ env : Nat → ScriptEvent,
      (loadGoogleMaps env false none true 0 0).outcome
        ≠ .errored "Failed to load Google Maps after 3 attempts. Please check your internet connection and API key.") := by
  refine ⟨by simp [loadGoogleMaps], by simp [loadGoogleMaps], ?_⟩
  intro env
  rcases henv : env 0 with _ | b
  · simp [loadGoogleMaps, henv]
  · rcases b <;> simp [loadGoogleMaps, henv]

/-! ### Claim C5: no retry when the API surface is absent after the settle delay -/

/-- C5 counterexample: an environment where the first attempt fires `onload`
with the API surface absent and every later attempt would succeed.  Were the
bounded retry policy applied (as the claim states), the loader would restart
the load and reach the loaded state; the code instead stops at the terminal
error after a single attempt with zero retry waits. -/
theorem settleDelayNoRetry_counterexample :
    loadGoogleMaps (fun n => if n = 0 then .loadFires false else .loadFires true)
        false none true 0 0
      = ⟨.errored "Google Maps loaded but API not available", 1, 0⟩ ∧
    (loadGoogleMaps (fun n => if n = 0 then .loadFires false else .loadFires true)
        false none true 0 0).outcome
      ≠ .loaded := by
  constructor
  · simp [loadGoogleMaps]
  · simp [loadGoogleMaps]

/-- C5 amended: if, on a fresh load (engine absent, no script in the DOM,
key present), the load event fires and after the settle delay the API
surface is absent, the loader reports the terminal error immediately —
one attempt, no retry wait, regardless of how many retries remain. -/
theorem settleDelayTerminalError (env : Nat → ScriptEvent) (nextScript retryCount : Nat)
    (h : env nextScript = .loadFires false) :
    loadGoogleMaps env false none true nextScript retryCount
      = ⟨.errored "Google Maps loaded but API not available", 1, 0⟩ := by
  simp [loadGoogleMaps, h]

/-- Witness for the amended C5 statement at a concrete environment. -/
theorem settleDelayTerminalError_witness :
    ((fun _ : Nat => ScriptEvent.loadFires false) 5 = .loadFires false) ∧
    loadGoogleMaps (fun _ => .loadFires false) false none true 5 2
      = ⟨.errored "Google Maps loaded but API not available", 1, 0⟩ :=
  ⟨rfl, settleDelayTerminalError (fun _ => .loadFires false) 5 2 rfl⟩

/-! ### Claim C6: location failure classification and fallback -/

/-- C6: every failing invocation of `getCurrentLocation` is classified into
exactly one of the five failure outcomes, stores the Chennai fallback (never
null — the stored location is a total value), fires exactly one toast
notification, and records an error message. -/
theorem locationFailureFallback (call : GeoCall)
    (hfail : ∀ lat lng, call ≠ .position lat lng) :
    (getCurrentLocation call).location = chennaiFallback ∧
    (getCurrentLocation call).outcome ≠ .measured ∧
    ((getCurrentLocation call).outcome = .permission_denied ∨
      (getCurrentLocation call).outcome = .position_unavailable ∨
      (getCurrentLocation call).outcome = .timeout ∨
      (getCurrentLocation call).outcome = .unsupported ∨
      (getCurrentLocation call).outcome = .unknown) ∧
    (getCurrentLocation call).toasts = 1 ∧
    (getCurrentLocation call).errorMessage ≠ none := by
  cases call with
  | unsupported => refine ⟨rfl, by simp [getCurrentLocation], ?_, rfl, by simp [getCurrentLocation]⟩; simp [getCurrentLocation]
  | position lat lng => exact absurd rfl (hfail lat lng)
  | geoError code =>
    rcases code with _ | _ | _ | _ | code <;>
      refine ⟨rfl, by simp [getCurrentLocation], ?_, rfl, by simp [getCurrentLocation]⟩ <;>
      simp [getCurrentLocation]

/-- Witness for C6 at the simulated timeout failure (error code 3). -/
theorem locationFailureFallback_witness :
    (∀ lat lng, GeoCall.geoError 3 ≠ .position lat lng) ∧
    ((getCurrentLocation (.geoError 3)).location = chennaiFallback ∧
      (getCurrentLocation (.geoError 3)).outcome ≠ .measured ∧
      ((getCurrentLocation (.geoError 3)).outcome = .permission_denied ∨
        (getCurrentLocation (.geoError 3)).outcome = .position_unavailable ∨
        (getCurrentLocation (.geoError 3)).outcome = .timeout ∨
        (getCurrentLocation (.geoError 3)).outcome = .unsupported ∨
        (getCurrentLocation (.geoError 3)).outcome = .unknown) ∧
      (getCurrentLocation (.geoError 3)).toasts = 1 ∧
      (getCurrentLocation (.geoError 3)).errorMessage ≠ none) :=
  ⟨(fun lat lng h => by cases h),
    locationFailureFallback (.geoError 3) (fun lat lng h => by cases h)⟩

/-! ### Helper lemmas for the orchestrator claims -/

theorem length_filterMapGeom (origin : Coordinate) (i : Nat) (cat : SearchCategory) :
    ∀ (l : List PlaceResult) (n : Nat),
      ((l.enumFrom n).filterMap (fun pr =>
        match pr.2.geometry with
        | some loc => some (poiOf origin i cat pr.1 pr.2 loc)
        | none => none)).length
      = (l.filter (fun pl => pl.geometry.isSome)).length := by
  intro l
  induction l with
  | nil => intro n; simp
  | cons x xs ih =>
    intro n
    rw [List.enumFrom_cons]
    cases hg : x.geometry with
    | some loc =>
      simp only [List.filterMap_cons, List.filter_cons, hg, Option.isSome_some, if_pos]
      simp [ih (n + 1)]
    | none =>
      simp only [List.filterMap_cons, List.filter_cons, hg, Option.isSome_none]
      simp [ih (n + 1)]

theorem length_categoryPOIs (origin : Coordinate) (i : Nat) (cat : SearchCategory)
    (r : SearchOutcome) :
    (categoryPOIs origin i cat r).length = countGeoms r := by
  cases r with
  | ok results =>
    have henum : (results.take 3).enum = (results.take 3).enumFrom 0 := rfl
    simp only [categoryPOIs, countGeoms, henum]
    exact length_filterMapGeom origin i cat (results.take 3) 0
  | okNullResults => rfl
  | nonOkStatus s => rfl
  | transportThrow => rfl

theorem lt_three_of_take3 {α : Type} {l : List α} {k : Nat} {a : α}
    (h : (l.take 3)[k]? = some a) : k < 3 := by
  have h1 := (List.getElem?_eq_some.mp h).1
  have h2 : (l.take 3).length ≤ 3 := by
    rw [List.length_take]
    omega
  omega

theorem published_eq (origin : Coordinate) (cats : List SearchCategory)
    (rs : List SearchOutcome) (hlen : rs.length = cats.length) (h0 : cats ≠ []) :
    (searchNearbyFishingPlaces origin cats rs).fishingPOIs
      = some (sortPOIs (collectPOIs origin cats rs)) := by
  unfold searchNearbyFishingPlaces
  have hLlen : ((cats.zip rs).enum).length = cats.length := by
    rw [List.enum_length, List.length_zip, hlen, Nat.min_self]
  rw [foldl_searchStep_published_some origin cats.length _ _ (by simp [hLlen]) ?hne]
  case hne =>
    intro h
    rw [h] at hLlen
    simp only [List.length_nil] at hLlen
    exact h0 (List.length_eq_zero.mp hLlen.symm)
  rw [List.nil_append]
  rfl

theorem completed_eq (origin : Coordinate) (cats : List SearchCategory)
    (rs : List SearchOutcome) (hlen : rs.length = cats.length) :
    (searchNearbyFishingPlaces origin cats rs).searchesCompleted = cats.length := by
  unfold searchNearbyFishingPlaces
  rw [foldl_searchStep_completed]
  rw [List.enum_length, List.length_zip, hlen, Nat.min_self]
  simp

theorem published_none_of_partial (origin : Coordinate) (cats : List SearchCategory)
    (rs : List SearchOutcome) (k : Nat) (hk : k < cats.length) :
    (searchNearbyFishingPlaces origin cats (rs.take k)).fishingPOIs = none := by
  unfold searchNearbyFishingPlaces
  apply foldl_searchStep_published_none
  · rfl
  · have hz : (⟨0, [], none⟩ : RunState).searchesCompleted = 0 := rfl
    rw [hz, List.enum_length, List.length_zip, List.length_take]
    omega

theorem exampleIds :
    (collectPOIs chennaiFallback searches exampleResponses).map (fun p => p.id)
      = [0, 1, 10, 11, 20, 21, 40, 41, 50, 51, 60, 61] := rfl

/-! ### Claim C2: completion counting and partial-failure tolerance -/

/-- C2: every callback (success, non-OK status, or transport throw)
increments the completion counter exactly once; with all `N` category
responses in, the counter equals `N` and the batch is finalized (the ranked
sequence published), while any strict prefix of responses leaves it
unpublished.  In the seven-category scenario where category index 3 throws
and every other category returns 2 results, the tally reaches 7 and the
published sequence has exactly 12 entries, none from category 3. -/
theorem searchCompletionPolicy (origin : Coordinate) (cats : List SearchCategory)
    (rs : List SearchOutcome) (hlen : rs.length = cats.length) (h0 : cats ≠ []) :
    (∀ (s : RunState) (e : Nat × SearchCategory × SearchOutcome),
      (searchStep origin cats.length s e).searchesCompleted = s.searchesCompleted + 1) ∧
    (searchNearbyFishingPlaces origin cats rs).searchesCompleted = cats.length ∧
    (searchNearbyFishingPlaces origin cats rs).fishingPOIs
      = some (sortPOIs (collectPOIs origin cats rs)) ∧
    (∀ k, k < cats.length →
      (searchNearbyFishingPlaces origin cats (rs.take k)).fishingPOIs = none) ∧
    (searchNearbyFishingPlaces chennaiFallback searches exampleResponses).searchesCompleted
      = 7 ∧
    (∃ l, (searchNearbyFishingPlaces chennaiFallback searches exampleResponses).fishingPOIs
        = some l ∧
      l.length = 12 ∧ ∀ p ∈ l, ¬(30 ≤ p.id ∧ p.id < 40)) := by
  refine ⟨fun s e => searchStep_searchesCompleted origin cats.length s e,
    completed_eq origin cats rs hlen,
    published_eq origin cats rs hlen h0,
    fun k hk => published_none_of_partial origin cats rs k hk,
    completed_eq chennaiFallback searches exampleResponses rfl,
    sortPOIs (collectPOIs chennaiFallback searches exampleResponses),
    published_eq chennaiFallback searches exampleResponses rfl (by simp [searches]), ?_, ?_⟩
  · rw [sortPOIs, length_stableSortBy]
    have h12 := congrArg List.length exampleIds
    rw [List.length_map] at h12
    exact h12
  · intro p hp
    rw [sortPOIs, mem_stableSortBy] at hp
    have hid : p.id ∈ (collectPOIs chennaiFallback searches exampleResponses).map
        (fun p => p.id) :=
      List.mem_map_of_mem _ hp
    rw [exampleIds] at hid
    simp only [List.mem_cons, List.not_mem_nil, or_false] at hid
    omega

/-- Witness for C2 at the concrete seven-category scenario. -/
theorem searchCompletionPolicy_witness :
    exampleResponses.length = searches.length ∧ searches ≠ [] ∧
    (searchNearbyFishingPlaces chennaiFallback searches exampleResponses).searchesCompleted
      = searches.length :=
  ⟨rfl, (by simp [searches]),
    (searchCompletionPolicy chennaiFallback searches exampleResponses rfl
      (by simp [searches])).2.1⟩

/-! ### Claim C3: id derivation, uniqueness and stable ranking -/

/-- C3: every collected POI comes from an OK category `i` and a
geometry-bearing result at position `k < 3` among the first three results,
with `id = i * 10 + k` and `distanceKm` computed by the haversine
`calculateDistance` from the origin; ids are pairwise distinct within a run;
and the published sequence is a permutation of the discovery list that is
weakly sorted by distance in which ties keep discovery order (ids, which
increase along discovery order, stay increasing on ties). -/
theorem searchAggregationRanking (origin : Coordinate) (cats : List SearchCategory)
    (rs : List SearchOutcome) (hlen : rs.length = cats.length) (h0 : cats ≠ []) :
    (∀ p ∈ collectPOIs origin cats rs,
      ∃ i cat results k place loc,
        (cats.zip rs)[i]? = some (cat, .ok results) ∧
        (results.take 3)[k]? = some place ∧ k < 3 ∧
        place.geometry = some loc ∧
        p.id = i * 10 + k ∧ p.distance = calculateDistance origin loc) ∧
    (collectPOIs origin cats rs).Pairwise (fun p q => p.id ≠ q.id) ∧
    (searchNearbyFishingPlaces origin cats rs).fishingPOIs
      = some (sortPOIs (collectPOIs origin cats rs)) ∧
    (sortPOIs (collectPOIs origin cats rs)).Perm (collectPOIs origin cats rs) ∧
    (sortPOIs (collectPOIs origin cats rs)).Pairwise
      (fun p q => p.distance ≤ q.distance ∧ (q.distance ≤ p.distance → p.id < q.id)) := by
  refine ⟨?_, ?_, published_eq origin cats rs hlen h0, stableSortBy_perm _ _, ?_⟩
  · intro p hp
    obtain ⟨i, cat, results, k, place, loc, hi, hk, hg, hpeq⟩ :=
      (mem_collectPOIs_iff origin cats rs p).mp hp
    exact ⟨i, cat, results, k, place, loc, hi, hk, lt_three_of_take3 hk, hg,
      by rw [hpeq]; rfl, by rw [hpeq]; rfl⟩
  · exact (pairwise_id_lt_collectPOIs origin cats rs).imp (fun h => Nat.ne_of_lt h)
  · exact pairwise_stableSortBy (fun p => p.distance) (fun p q => p.id < q.id)
      (collectPOIs origin cats rs) (pairwise_id_lt_collectPOIs origin cats rs)

/-- Witness for C3 at the concrete seven-category scenario. -/
theorem searchAggregationRanking_witness :
    exampleResponses.length = searches.length ∧ searches ≠ [] ∧
    (collectPOIs chennaiFallback searches exampleResponses).Pairwise
      (fun p q => p.id ≠ q.id) :=
  ⟨rfl, (by simp [searches]),
    (searchAggregationRanking chennaiFallback searches exampleResponses rfl
      (by simp [searches])).2.1⟩

/-! ### Claim C10: no deduplication, one entry per geometry-bearing result -/

/-- C10: the aggregation performs no deduplication across categories — a
result with the same provider id reachable from two different categories
produces one entry per category, with distinct ids; the finalized sequence
has exactly one entry per OK-status geometry-bearing result among the first
three of each category; and a result lacking a geometry is skipped without
shifting the ids of the other results of its category (its id slot is simply
absent from the run). -/
theorem searchNoDeduplication (origin : Coordinate) (cats : List SearchCategory)
    (rs : List SearchOutcome) (i j ki kj : Nat) (ci cj : SearchCategory)
    (resi resj : List PlaceResult) (pli plj : PlaceResult) (loci locj : Coordinate)
    (hij : i ≠ j)
    (hi : (cats.zip rs)[i]? = some (ci, .ok resi))
    (hj : (cats.zip rs)[j]? = some (cj, .ok resj))
    (hki : (resi.take 3)[ki]? = some pli) (hgi : pli.geometry = some loci)
    (hkj : (resj.take 3)[kj]? = some plj) (hgj : plj.geometry = some locj)
    (hsame : pli.place_id = plj.place_id) :
    (∃ p ∈ collectPOIs origin cats rs, p.id = i * 10 + ki ∧ p.place_id = pli.place_id) ∧
    (∃ q ∈ collectPOIs origin cats rs, q.id = j * 10 + kj ∧ q.place_id = pli.place_id) ∧
    i * 10 + ki ≠ j * 10 + kj ∧
    (collectPOIs origin cats rs).length
      = ((cats.zip rs).map (fun e => countGeoms e.2)).sum ∧
    (∀ k pl, (resi.take 3)[k]? = some pl → pl.geometry = none →
      ∀ p ∈ collectPOIs origin cats rs, p.id ≠ i * 10 + k) := by
  have hki3 := lt_three_of_take3 hki
  have hkj3 := lt_three_of_take3 hkj
  refine ⟨?_, ?_, by omega, ?_, ?_⟩
  · exact ⟨poiOf origin i ci ki pli loci,
      (mem_collectPOIs_iff origin cats rs _).mpr
        ⟨i, ci, resi, ki, pli, loci, hi, hki, hgi, rfl⟩, rfl, rfl⟩
  · exact ⟨poiOf origin j cj kj plj locj,
      (mem_collectPOIs_iff origin cats rs _).mpr
        ⟨j, cj, resj, kj, plj, locj, hj, hkj, hgj, rfl⟩, rfl, hsame.symm⟩
  · unfold collectPOIs
    rw [List.length_flatMap]
    have hmap : ((cats.zip rs).enum).map
        (List.length ∘ fun e => categoryPOIs origin e.1 e.2.1 e.2.2)
        = ((cats.zip rs).enum).map (fun e => countGeoms e.2.2) := by
      apply List.map_congr_left
      intro e _
      exact length_categoryPOIs origin e.1 e.2.1 e.2.2
    rw [hmap]
    have hsnd : ((cats.zip rs).enum).map (fun e => countGeoms e.2.2)
        = ((cats.zip rs).enum.map Prod.snd).map (fun e => countGeoms e.2) := by
      rw [List.map_map]
      rfl
    rw [hsnd, List.enum_map_snd]
  · intro k pl hk hgnone p hp hpid
    obtain ⟨i2, cat2, results2, k2, place2, loc2, hi2, hk2, hg2, hpeq⟩ :=
      (mem_collectPOIs_iff origin cats rs p).mp hp
    have hk23 := lt_three_of_take3 hk2
    have hk3 := lt_three_of_take3 hk
    have hid2 : p.id = i2 * 10 + k2 := by rw [hpeq]; rfl
    have hii : i2 = i ∧ k2 = k := by omega
    obtain ⟨rfl, rfl⟩ := hii
    rw [hi] at hi2
    obtain ⟨heq1, heq2⟩ := Prod.mk.injEq .. ▸ (Option.some_inj.mp hi2)
    cases heq1
    cases SearchOutcome.ok.injEq .. ▸ heq2
    rw [hk] at hk2
    cases Option.some_inj.mp hk2
    rw [hgnone] at hg2
    exact Option.noConfusion hg2

/-- Witness for C10: the same place with identical provider id reached from
categories 0 and 1, with a geometry-less result occupying slot 0 of
category 1. -/
theorem searchNoDeduplication_witness :
    ((0 : Nat) ≠ 1) ∧
    ((searches.zip ([.ok [examplePlace], .ok [noGeomPlace, examplePlace]] : List SearchOutcome))[0]?
      = some (⟨"fishing marina harbor", .marina⟩, .ok [examplePlace])) ∧
    (∃ p ∈ collectPOIs chennaiFallback searches
        ([.ok [examplePlace], .ok [noGeomPlace, examplePlace]] : List SearchOutcome),
      p.id = 0 * 10 + 0 ∧ p.place_id = examplePlace.place_id) ∧
    (∃ q ∈ collectPOIs chennaiFallback searches
        ([.ok [examplePlace], .ok [noGeomPlace, examplePlace]] : List SearchOutcome),
      q.id = 1 * 10 + 1 ∧ q.place_id = examplePlace.place_id) := by
  have h := searchNoDeduplication chennaiFallback searches
    ([.ok [examplePlace], .ok [noGeomPlace, examplePlace]] : List SearchOutcome) 0 1 0 1
    ⟨"fishing marina harbor", .marina⟩ ⟨"fishing spot pier jetty", .fishing_spot⟩
    [examplePlace] [noGeomPlace, examplePlace] examplePlace examplePlace
    ⟨13.05, 80.28⟩ ⟨13.05, 80.28⟩ (by omega) rfl rfl rfl rfl rfl rfl rfl
  exact ⟨by omega, rfl, h.1, h.2.1⟩

/-! ### The haversine term and the central angle -/

theorem sin_sq_half (x : ℝ) :
    Real.sin (x / 2) * Real.sin (x / 2) = (1 - Real.cos x) / 2 := by
  have h1 := Real.sin_sq_add_cos_sq (x / 2)
  have h2 := Real.cos_two_mul (x / 2)
  have h3 : 2 * (x / 2) = x := by ring
  rw [h3] at h2
  nlinarith [h1, h2]

theorem one_sub_two_hav (p q : Coordinate) :
    1 - 2 * havTerm p q = dot3 (uvec p) (uvec q) := by
  have hA := sin_sq_half ((q.lat - p.lat) * Real.pi / 180)
  have hB := sin_sq_half ((q.lng - p.lng) * Real.pi / 180)
  have hC : Real.cos ((q.lat - p.lat) * Real.pi / 180)
      = Real.cos (q.lat * Real.pi / 180) * Real.cos (p.lat * Real.pi / 180)
        + Real.sin (q.lat * Real.pi / 180) * Real.sin (p.lat * Real.pi / 180) := by
    rw [show (q.lat - p.lat) * Real.pi / 180
        = q.lat * Real.pi / 180 - p.lat * Real.pi / 180 from by ring]
    exact Real.cos_sub _ _
  have hD : Real.cos ((q.lng - p.lng) * Real.pi / 180)
      = Real.cos (q.lng * Real.pi / 180) * Real.cos (p.lng * Real.pi / 180)
        + Real.sin (q.lng * Real.pi / 180) * Real.sin (p.lng * Real.pi / 180) := by
    rw [show (q.lng - p.lng) * Real.pi / 180
        = q.lng * Real.pi / 180 - p.lng * Real.pi / 180 from by ring]
    exact Real.cos_sub _ _
  simp only [havTerm, dot3, uvec]
  linear_combination (-2 : ℝ) * hA
    + (-2 * Real.cos (p.lat * Real.pi / 180) * Real.cos (q.lat * Real.pi / 180)) * hB
    + hC + (Real.cos (p.lat * Real.pi / 180) * Real.cos (q.lat * Real.pi / 180)) * hD

theorem dot3_uvec_self (p : Coordinate) : dot3 (uvec p) (uvec p) = 1 := by
  simp only [dot3, uvec]
  have h1 := Real.sin_sq_add_cos_sq (p.lat * Real.pi / 180)
  have h2 := Real.sin_sq_add_cos_sq (p.lng * Real.pi / 180)
  linear_combination (Real.cos (p.lat * Real.pi / 180)) ^ 2 * h2 + h1

theorem abs_dot3_le_one (u v : ℝ × ℝ × ℝ) (hu : dot3 u u = 1) (hv : dot3 v v = 1) :
    -1 ≤ dot3 u v ∧ dot3 u v ≤ 1 := by
  rcases u with ⟨u1, u2, u3⟩
  rcases v with ⟨v1, v2, v3⟩
  simp only [dot3] at hu hv ⊢
  constructor
  · nlinarith [sq_nonneg (u1 + v1), sq_nonneg (u2 + v2), sq_nonneg (u3 + v3)]
  · nlinarith [sq_nonneg (u1 - v1), sq_nonneg (u2 - v2), sq_nonneg (u3 - v3)]

theorem gram_identity (u v w : ℝ × ℝ × ℝ) :
    dot3 u u * dot3 v v * dot3 w w + 2 * dot3 u v * dot3 v w * dot3 u w
      - dot3 u u * dot3 v w ^ 2 - dot3 v v * dot3 u w ^ 2 - dot3 w w * dot3 u v ^ 2
      = det3 u v w ^ 2 := by
  rcases u with ⟨u1, u2, u3⟩
  rcases v with ⟨v1, v2, v3⟩
  rcases w with ⟨w1, w2, w3⟩
  simp only [dot3, det3]
  ring

theorem dot3_sub_mul_sq_le (u v w : ℝ × ℝ × ℝ)
    (hu : dot3 u u = 1) (hv : dot3 v v = 1) (hw : dot3 w w = 1) :
    (dot3 u w - dot3 u v * dot3 v w) ^ 2 ≤ (1 - dot3 u v ^ 2) * (1 - dot3 v w ^ 2) := by
  have hg := gram_identity u v w
  rw [hu, hv, hw] at hg
  nlinarith [sq_nonneg (det3 u v w), hg]

theorem arccos_le_arccos_of_le {a b : ℝ} (h : a ≤ b) : Real.arccos b ≤ Real.arccos a := by
  rw [Real.arccos_eq_pi_div_two_sub_arcsin, Real.arccos_eq_pi_div_two_sub_arcsin]
  have := Real.monotone_arcsin h
  linarith

/-- Triangle inequality for the angle `arccos` of dot products of unit
vectors. -/
theorem arccos_dot3_triangle (u v w : ℝ × ℝ × ℝ)
    (hu : dot3 u u = 1) (hv : dot3 v v = 1) (hw : dot3 w w = 1) :
    Real.arccos (dot3 u w) ≤ Real.arccos (dot3 u v) + Real.arccos (dot3 v w) := by
  have hx := abs_dot3_le_one u v hu hv
  have hy := abs_dot3_le_one v w hv hw
  have hkey := dot3_sub_mul_sq_le u v w hu hv hw
  by_cases hβ : Real.pi ≤ Real.arccos (dot3 u v) + Real.arccos (dot3 v w)
  · linarith [Real.arccos_le_pi (dot3 u w)]
  · push_neg at hβ
    have hx2 : 0 ≤ 1 - dot3 u v ^ 2 := by nlinarith [hx.1, hx.2]
    have hy2 : 0 ≤ 1 - dot3 v w ^ 2 := by nlinarith [hy.1, hy.2]
    have hcos : Real.cos (Real.arccos (dot3 u v) + Real.arccos (dot3 v w))
        = dot3 u v * dot3 v w
          - Real.sqrt (1 - dot3 u v ^ 2) * Real.sqrt (1 - dot3 v w ^ 2) := by
      rw [Real.cos_add, Real.cos_arccos hx.1 hx.2, Real.cos_arccos hy.1 hy.2,
        Real.sin_arccos, Real.sin_arccos]
    have hP0 : 0 ≤ Real.sqrt (1 - dot3 u v ^ 2) * Real.sqrt (1 - dot3 v w ^ 2) := by
      positivity
    have hPsq : (Real.sqrt (1 - dot3 u v ^ 2) * Real.sqrt (1 - dot3 v w ^ 2)) ^ 2
        = (1 - dot3 u v ^ 2) * (1 - dot3 v w ^ 2) := by
      rw [mul_pow, Real.sq_sqrt hx2, Real.sq_sqrt hy2]
    have hge : Real.cos (Real.arccos (dot3 u v) + Real.arccos (dot3 v w)) ≤ dot3 u w := by
      rw [hcos]
      nlinarith [hkey, hP0, hPsq,
        sq_nonneg (dot3 u w - dot3 u v * dot3 v w
          + Real.sqrt (1 - dot3 u v ^ 2) * Real.sqrt (1 - dot3 v w ^ 2))]
    calc Real.arccos (dot3 u w)
        ≤ Real.arccos (Real.cos (Real.arccos (dot3 u v) + Real.arccos (dot3 v w))) :=
          arccos_le_arccos_of_le hge
      _ = Real.arccos (dot3 u v) + Real.arccos (dot3 v w) :=
          Real.arccos_cos
            (by linarith [Real.arccos_nonneg (dot3 u v), Real.arccos_nonneg (dot3 v w)])
            hβ.le

theorem atan2_sqrt_eq_arcsin (a : ℝ) (h0 : 0 ≤ a) (h1 : a < 1) :
    atan2 (Real.sqrt a) (Real.sqrt (1 - a)) = Real.arcsin (Real.sqrt a) := by
  have hx : 0 < Real.sqrt (1 - a) := Real.sqrt_pos.mpr (by linarith)
  rw [atan2, if_pos hx]
  have hs0 : 0 ≤ Real.sqrt a := Real.sqrt_nonneg a
  have hs1 : Real.sqrt a ≤ 1 := by
    rw [show (1 : ℝ) = Real.sqrt 1 from Real.sqrt_one.symm]
    exact Real.sqrt_le_sqrt (by linarith)
  have hθub : Real.arcsin (Real.sqrt a) < Real.pi / 2 := by
    rw [Real.arcsin_lt_pi_div_two]
    rw [show (1 : ℝ) = Real.sqrt 1 from Real.sqrt_one.symm]
    exact Real.sqrt_lt_sqrt h0 h1
  have hθlb : 0 ≤ Real.arcsin (Real.sqrt a) := Real.arcsin_nonneg.mpr hs0
  have htan : Real.tan (Real.arcsin (Real.sqrt a)) = Real.sqrt a / Real.sqrt (1 - a) := by
    rw [Real.tan_eq_sin_div_cos, Real.sin_arcsin (by linarith) hs1, Real.cos_arcsin]
    congr 1
    rw [Real.sq_sqrt h0]
  rw [← htan, Real.arctan_tan (by linarith [Real.pi_pos]) hθub]

theorem two_arcsin_sqrt_eq_arccos (a : ℝ) (h0 : 0 ≤ a) (h1 : a ≤ 1) :
    2 * Real.arcsin (Real.sqrt a) = Real.arccos (1 - 2 * a) := by
  have hs0 : 0 ≤ Real.sqrt a := Real.sqrt_nonneg a
  have hs1 : Real.sqrt a ≤ 1 := by
    rw [show (1 : ℝ) = Real.sqrt 1 from Real.sqrt_one.symm]
    exact Real.sqrt_le_sqrt h1
  have hθ0 : 0 ≤ Real.arcsin (Real.sqrt a) := Real.arcsin_nonneg.mpr hs0
  have hθ1 : Real.arcsin (Real.sqrt a) ≤ Real.pi / 2 := Real.arcsin_le_pi_div_two _
  have hcos : Real.cos (2 * Real.arcsin (Real.sqrt a)) = 1 - 2 * a := by
    rw [Real.cos_two_mul, Real.cos_arcsin, Real.sq_sqrt h0,
      Real.sq_sqrt (by linarith : (0 : ℝ) ≤ 1 - a)]
    ring
  rw [← hcos, Real.arccos_cos (by linarith) (by linarith)]

theorem two_atan2_sqrt_eq_arccos (a : ℝ) (h0 : 0 ≤ a) (h1 : a ≤ 1) :
    2 * atan2 (Real.sqrt a) (Real.sqrt (1 - a)) = Real.arccos (1 - 2 * a) := by
  rcases eq_or_lt_of_le h1 with heq | hlt
  · rw [heq]
    norm_num [atan2, Real.arccos_neg_one]
    ring
  · rw [atan2_sqrt_eq_arcsin a h0 hlt]
    exact two_arcsin_sqrt_eq_arccos a h0 h1

theorem rad_bounds (p : Coordinate) (hp : p.valid) :
    -(Real.pi / 2) ≤ p.lat * Real.pi / 180 ∧ p.lat * Real.pi / 180 ≤ Real.pi / 2 := by
  obtain ⟨h1, h2, -, -⟩ := hp
  have hπ := Real.pi_pos
  constructor
  · nlinarith [mul_nonneg (by linarith : (0 : ℝ) ≤ p.lat + 90) hπ.le]
  · nlinarith [mul_nonneg (by linarith : (0 : ℝ) ≤ 90 - p.lat) hπ.le]

theorem havTerm_nonneg (p q : Coordinate) (hp : p.valid) (hq : q.valid) :
    0 ≤ havTerm p q := by
  have hc1 : 0 ≤ Real.cos (p.lat * Real.pi / 180) :=
    Real.cos_nonneg_of_mem_Icc ⟨(rad_bounds p hp).1, (rad_bounds p hp).2⟩
  have hc2 : 0 ≤ Real.cos (q.lat * Real.pi / 180) :=
    Real.cos_nonneg_of_mem_Icc ⟨(rad_bounds q hq).1, (rad_bounds q hq).2⟩
  unfold havTerm
  nlinarith [mul_self_nonneg (Real.sin ((q.lat - p.lat) * Real.pi / 180 / 2)),
    mul_self_nonneg (Real.sin ((q.lng - p.lng) * Real.pi / 180 / 2)),
    mul_nonneg hc1 hc2]

theorem havTerm_le_one (p q : Coordinate) : havTerm p q ≤ 1 := by
  have hd := (abs_dot3_le_one (uvec p) (uvec q) (dot3_uvec_self p) (dot3_uvec_self q)).1
  have h := one_sub_two_hav p q
  linarith

/-- The haversine distance of the source equals Earth radius times the
central angle between the two unit vectors. -/
theorem calculateDistance_eq_arccos (p q : Coordinate) (hp : p.valid) (hq : q.valid) :
    calculateDistance p q = 6371 * Real.arccos (dot3 (uvec p) (uvec q)) := by
  have h0 := havTerm_nonneg p q hp hq
  have h1 := havTerm_le_one p q
  have hdef : calculateDistance p q
      = 6371 * (2 * atan2 (Real.sqrt (havTerm p q)) (Real.sqrt (1 - havTerm p q))) := rfl
  rw [hdef, two_atan2_sqrt_eq_arccos (havTerm p q) h0 h1, one_sub_two_hav]

/-! ### Claim C8: metric properties of `calculateDistance` -/

/-- C8: for valid coordinates, the haversine distance of the source
vanishes on equal points, is symmetric, and satisfies the triangle
inequality (the real-number model is exact, hence within any floating-point
tolerance). -/
theorem haversineMetricProperties (a b c : Coordinate)
    (ha : a.valid) (hb : b.valid) (hc : c.valid) :
    calculateDistance a a = 0 ∧
    calculateDistance a b = calculateDistance b a ∧
    calculateDistance a c ≤ calculateDistance a b + calculateDistance b c := by
  refine ⟨?_, ?_, ?_⟩
  · have hzero : havTerm a a = 0 := by
      unfold havTerm
      simp [sub_self]
    have hdef : calculateDistance a a
        = 6371 * (2 * atan2 (Real.sqrt (havTerm a a)) (Real.sqrt (1 - havTerm a a))) := rfl
    rw [hdef, hzero]
    norm_num [atan2, Real.arctan_zero]
  · have hsym : havTerm a b = havTerm b a := by
      unfold havTerm
      have e2 : ∀ u v : ℝ, Real.sin ((u - v) * Real.pi / 180 / 2)
          = -Real.sin ((v - u) * Real.pi / 180 / 2) := by
        intro u v
        rw [show (u - v) * Real.pi / 180 / 2 = -((v - u) * Real.pi / 180 / 2) from by ring,
          Real.sin_neg]
      rw [e2 b.lat a.lat, e2 b.lng a.lng]
      ring
    have hdef1 : calculateDistance a b
        = 6371 * (2 * atan2 (Real.sqrt (havTerm a b)) (Real.sqrt (1 - havTerm a b))) := rfl
    have hdef2 : calculateDistance b a
        = 6371 * (2 * atan2 (Real.sqrt (havTerm b a)) (Real.sqrt (1 - havTerm b a))) := rfl
    rw [hdef1, hdef2, hsym]
  · rw [calculateDistance_eq_arccos a c ha hc, calculateDistance_eq_arccos a b ha hb,
      calculateDistance_eq_arccos b c hb hc]
    have ht := arccos_dot3_triangle (uvec a) (uvec b) (uvec c)
      (dot3_uvec_self a) (dot3_uvec_self b) (dot3_uvec_self c)
    linarith

/-- Witness for C8 at three concrete valid coordinates. -/
theorem haversineMetricProperties_witness :
    (⟨0, 0⟩ : Coordinate).valid ∧ (⟨10, 20⟩ : Coordinate).valid ∧
    (⟨-30, 50⟩ : Coordinate).valid ∧
    (calculateDistance ⟨0, 0⟩ ⟨0, 0⟩ = 0 ∧
      calculateDistance ⟨0, 0⟩ ⟨10, 20⟩ = calculateDistance ⟨10, 20⟩ ⟨0, 0⟩ ∧
      calculateDistance ⟨0, 0⟩ ⟨-30, 50⟩
        ≤ calculateDistance ⟨0, 0⟩ ⟨10, 20⟩ + calculateDistance ⟨10, 20⟩ ⟨-30, 50⟩) :=
  ⟨by norm_num [Coordinate.valid], by norm_num [Coordinate.valid],
    by norm_num [Coordinate.valid],
    haversineMetricProperties ⟨0, 0⟩ ⟨10, 20⟩ ⟨-30, 50⟩
      (by norm_num [Coordinate.valid]) (by norm_num [Coordinate.valid])
      (by norm_num [Coordinate.valid])⟩

/-! ### Elementary bounds on `arcsin` for the numeric end-to-end check -/

theorem le_arcsin_self {t : ℝ} (h0 : 0 < t) (h1 : t ≤ 1) : t ≤ Real.arcsin t := by
  have hπ : (3 : ℝ) < Real.pi := Real.pi_gt_three
  have hs : Real.sin t ≤ t := le_of_lt (Real.sin_lt h0)
  have hmono := Real.monotone_arcsin hs
  rwa [Real.arcsin_sin (by linarith) (by linarith)] at hmono

theorem arcsin_le_add_cube {t : ℝ} (h0 : 0 < t) (h1 : t ≤ 1 / 2) :
    Real.arcsin t ≤ t + t ^ 3 := by
  have hπ : (3 : ℝ) < Real.pi := Real.pi_gt_three
  have hu0 : 0 < t + t ^ 3 := by positivity
  have hu1 : t + t ^ 3 ≤ 1 := by nlinarith [pow_le_pow_left₀ h0.le h1 3]
  have ht2 : t ^ 2 ≤ 1 / 4 := by nlinarith
  have h2 : (1 + t ^ 2) ^ 3 ≤ 4 := by nlinarith [ht2, sq_nonneg (t ^ 2)]
  have key : (t + t ^ 3) ^ 3 ≤ 4 * t ^ 3 := by
    have hexp : (t + t ^ 3) ^ 3 = t ^ 3 * (1 + t ^ 2) ^ 3 := by ring
    rw [hexp]
    calc t ^ 3 * (1 + t ^ 2) ^ 3 ≤ t ^ 3 * 4 :=
          mul_le_mul_of_nonneg_left h2 (by positivity)
      _ = 4 * t ^ 3 := by ring
  have hgt := Real.sin_gt_sub_cube hu0 hu1
  have hsin : t ≤ Real.sin (t + t ^ 3) := by nlinarith [hgt, key]
  have hmono := Real.monotone_arcsin hsin
  rwa [Real.arcsin_sin (by linarith) (by linarith)] at hmono

theorem sin_bounds_small {x lo hi : ℝ} (hlo : 0 < lo) (h1 : lo < x) (h2 : x < hi)
    (h3 : hi ≤ 1) :
    lo - hi ^ 3 / 4 < Real.sin x ∧ Real.sin x < hi := by
  have hx0 : 0 < x := lt_trans hlo h1
  have hhi0 : 0 < hi := lt_trans hx0 h2
  constructor
  · have hgt := Real.sin_gt_sub_cube hx0 (by linarith)
    have hc : x ^ 3 < hi ^ 3 := by
      nlinarith [mul_pos (sub_pos.mpr h2)
        (add_pos (add_pos (mul_pos hhi0 hhi0) (mul_pos hhi0 hx0)) (mul_pos hx0 hx0))]
    linarith
  · exact lt_trans (Real.sin_lt hx0) h2

theorem cos_bounds_small {x lo hi : ℝ} (hlo : 0 < lo) (h1 : lo < x) (h2 : x < hi)
    (h3 : hi ≤ 1) :
    1 - hi ^ 2 / 2 - hi ^ 4 * (5 / 96) < Real.cos x ∧
    Real.cos x < 1 - lo ^ 2 / 2 + hi ^ 4 * (5 / 96) := by
  have hx0 : 0 < x := lt_trans hlo h1
  have hhi0 : 0 < hi := lt_trans hx0 h2
  have habs : |x| ≤ 1 := by
    rw [abs_of_pos hx0]
    linarith
  have hb := Real.cos_bound habs
  rw [abs_of_pos hx0] at hb
  rcases abs_le.mp hb with ⟨hbl, hbu⟩
  have hsql : lo ^ 2 < x ^ 2 := by nlinarith [mul_pos (sub_pos.mpr h1) (add_pos hx0 hlo)]
  have hsqu : x ^ 2 < hi ^ 2 := by nlinarith [mul_pos (sub_pos.mpr h2) (add_pos hhi0 hx0)]
  have hq : x ^ 4 < hi ^ 4 := by
    nlinarith [mul_pos (sub_pos.mpr hsqu)
      (add_pos_of_nonneg_of_pos (sq_nonneg x) (pow_pos hhi0 2))]
  constructor
  · nlinarith [hbl, hsqu, hq]
  · nlinarith [hbu, hsql, hq]

theorem x1_bounds : (0.00015097 : ℝ) < (13.10 - 13.0827) * Real.pi / 180 / 2 ∧
    (13.10 - 13.0827) * Real.pi / 180 / 2 < 0.000150971 :=
  ⟨by linarith [Real.pi_gt_d6], by linarith [Real.pi_lt_d6]⟩

theorem x2_bounds : (0.00025569 : ℝ) < (80.30 - 80.2707) * Real.pi / 180 / 2 ∧
    (80.30 - 80.2707) * Real.pi / 180 / 2 < 0.000255691 :=
  ⟨by linarith [Real.pi_gt_d6], by linarith [Real.pi_lt_d6]⟩

theorem y1_bounds : (0.228336 : ℝ) < 13.0827 * Real.pi / 180 ∧
    13.0827 * Real.pi / 180 < 0.228337 :=
  ⟨by linarith [Real.pi_gt_d6], by linarith [Real.pi_lt_d6]⟩

theorem y2_bounds : (0.228638 : ℝ) < 13.10 * Real.pi / 180 ∧
    13.10 * Real.pi / 180 < 0.228639 :=
  ⟨by linarith [Real.pi_gt_d6], by linarith [Real.pi_lt_d6]⟩

theorem s1_bounds : (0.00015096 : ℝ) < Real.sin ((13.10 - 13.0827) * Real.pi / 180 / 2) ∧
    Real.sin ((13.10 - 13.0827) * Real.pi / 180 / 2) < 0.000150971 := by
  have hb := sin_bounds_small (by norm_num) x1_bounds.1 x1_bounds.2 (by norm_num)
  exact ⟨by linarith [hb.1], hb.2⟩

theorem s2_bounds : (0.000255689 : ℝ) < Real.sin ((80.30 - 80.2707) * Real.pi / 180 / 2) ∧
    Real.sin ((80.30 - 80.2707) * Real.pi / 180 / 2) < 0.000255691 := by
  have hb := sin_bounds_small (by norm_num) x2_bounds.1 x2_bounds.2 (by norm_num)
  exact ⟨by linarith [hb.1], hb.2⟩

theorem c1_bounds : (0.973789 : ℝ) < Real.cos (13.0827 * Real.pi / 180) ∧
    Real.cos (13.0827 * Real.pi / 180) < 0.974074 := by
  have hb := cos_bounds_small (by norm_num) y1_bounds.1 y1_bounds.2 (by norm_num)
  exact ⟨by linarith [hb.1], by linarith [hb.2]⟩

theorem c2_bounds : (0.973719 : ℝ) < Real.cos (13.10 * Real.pi / 180) ∧
    Real.cos (13.10 * Real.pi / 180) < 0.974005 := by
  have hb := cos_bounds_small (by norm_num) y2_bounds.1 y2_bounds.2 (by norm_num)
  exact ⟨by linarith [hb.1], by linarith [hb.2]⟩

theorem hav_bounds_aux (s1 s2 c1 c2 : ℝ)
    (hs1l : (0.00015096 : ℝ) < s1) (hs1u : s1 < 0.000150971)
    (hs2l : (0.000255689 : ℝ) < s2) (hs2u : s2 < 0.000255691)
    (hc1l : (0.973789 : ℝ) < c1) (hc1u : c1 < 0.974074)
    (hc2l : (0.973719 : ℝ) < c2) (hc2u : c2 < 0.974005) :
    (0.0000000847788 : ℝ) < s1 * s1 + c1 * c2 * s2 * s2 ∧
    s1 * s1 + c1 * c2 * s2 * s2 < 0.0000000848199 := by
  have hs1sq_l : (0.00015096 : ℝ) * 0.00015096 < s1 * s1 :=
    mul_lt_mul'' hs1l hs1l (by norm_num) (by norm_num)
  have hs1sq_u : s1 * s1 < (0.000150971 : ℝ) * 0.000150971 :=
    mul_lt_mul'' hs1u hs1u (by linarith) (by linarith)
  have hs2sq_l : (0.000255689 : ℝ) * 0.000255689 < s2 * s2 :=
    mul_lt_mul'' hs2l hs2l (by norm_num) (by norm_num)
  have hs2sq_u : s2 * s2 < (0.000255691 : ℝ) * 0.000255691 :=
    mul_lt_mul'' hs2u hs2u (by linarith) (by linarith)
  have hc12_l : (0.973789 : ℝ) * 0.973719 < c1 * c2 :=
    mul_lt_mul'' hc1l hc2l (by norm_num) (by norm_num)
  have hc12_u : c1 * c2 < (0.974074 : ℝ) * 0.974005 :=
    mul_lt_mul'' hc1u hc2u (by linarith) (by linarith)
  have hterm_l : ((0.973789 : ℝ) * 0.973719) * ((0.000255689 : ℝ) * 0.000255689)
      < (c1 * c2) * (s2 * s2) :=
    mul_lt_mul'' hc12_l hs2sq_l (by norm_num) (by norm_num)
  have hterm_u : (c1 * c2) * (s2 * s2)
      < ((0.974074 : ℝ) * 0.974005) * ((0.000255691 : ℝ) * 0.000255691) :=
    mul_lt_mul'' hc12_u hs2sq_u (by linarith) (by linarith)
  constructor
  · linarith [hs1sq_l, hterm_l]
  · linarith [hs1sq_u, hterm_u]

theorem hav_bounds : (0.0000000847788 : ℝ) < havTerm chennaiFallback ⟨13.10, 80.30⟩ ∧
    havTerm chennaiFallback ⟨13.10, 80.30⟩ < 0.0000000848199 := by
  have hhav : havTerm chennaiFallback ⟨13.10, 80.30⟩
      = Real.sin ((13.10 - 13.0827) * Real.pi / 180 / 2)
          * Real.sin ((13.10 - 13.0827) * Real.pi / 180 / 2)
        + Real.cos (13.0827 * Real.pi / 180) * Real.cos (13.10 * Real.pi / 180)
          * Real.sin ((80.30 - 80.2707) * Real.pi / 180 / 2)
          * Real.sin ((80.30 - 80.2707) * Real.pi / 180 / 2) := rfl
  rw [hhav]
  exact hav_bounds_aux _ _ _ _ s1_bounds.1 s1_bounds.2 s2_bounds.1 s2_bounds.2
    c1_bounds.1 c1_bounds.2 c2_bounds.1 c2_bounds.2

theorem sqrtHav_bounds :
    (0.000291155 : ℝ) < Real.sqrt (havTerm chennaiFallback ⟨13.10, 80.30⟩) ∧
    Real.sqrt (havTerm chennaiFallback ⟨13.10, 80.30⟩) < 0.000291245 := by
  constructor
  · rw [Real.lt_sqrt (by norm_num)]
    nlinarith [hav_bounds.1]
  · rw [Real.sqrt_lt' (by norm_num)]
    nlinarith [hav_bounds.2]

/-- Rigorous bounds for the end-to-end haversine distance from the Chennai
origin to `(13.10, 80.30)`: the code computes roughly 3.711 km. -/
theorem endToEndDistance_bounds :
    3.70 < calculateDistance chennaiFallback ⟨13.10, 80.30⟩ ∧
    calculateDistance chennaiFallback ⟨13.10, 80.30⟩ < 3.72 := by
  have ht := sqrtHav_bounds
  have hh0 : (0 : ℝ) < havTerm chennaiFallback ⟨13.10, 80.30⟩ := by
    linarith [hav_bounds.1]
  have hsq0 : (0 : ℝ) < Real.sqrt (havTerm chennaiFallback ⟨13.10, 80.30⟩) := by
    linarith [ht.1]
  have harcl : (0.000291155 : ℝ)
      < Real.arcsin (Real.sqrt (havTerm chennaiFallback ⟨13.10, 80.30⟩)) :=
    lt_of_lt_of_le ht.1 (le_arcsin_self hsq0 (by linarith [ht.2]))
  have harcu : Real.arcsin (Real.sqrt (havTerm chennaiFallback ⟨13.10, 80.30⟩))
      < 0.0002912451 := by
    have hle := arcsin_le_add_cube hsq0 (by linarith [ht.2])
    have hcube : Real.sqrt (havTerm chennaiFallback ⟨13.10, 80.30⟩) ^ 3
        < (0.000291245 : ℝ) ^ 3 := by
      exact pow_lt_pow_left₀ ht.2 hsq0.le (by norm_num)
    nlinarith [hle, ht.2, hcube]
  have hlt1 : havTerm chennaiFallback ⟨13.10, 80.30⟩ < 1 := by
    linarith [hav_bounds.2]
  have hdef : calculateDistance chennaiFallback ⟨13.10, 80.30⟩
      = 6371 * (2 * atan2 (Real.sqrt (havTerm chennaiFallback ⟨13.10, 80.30⟩))
          (Real.sqrt (1 - havTerm chennaiFallback ⟨13.10, 80.30⟩))) := rfl
  rw [hdef, atan2_sqrt_eq_arcsin _ hh0.le hlt1]
  constructor
  · linarith [harcl]
  · linarith [harcu]

/-! ### Claim C9: the end-to-end scenario -/

/-- C9 counterexample: in the end-to-end scenario — origin (13.0827, 80.2707),
one category at index 0 returning one result at (13.10, 80.30) — the
published POI has `id = 0` as claimed, but its `distanceKm`, computed by the
haversine `calculateDistance`, exceeds 3.7 km: it is not ≈ 2.9 (it differs
from 2.9 by more than 0.5). -/
theorem endToEndDistance_counterexample :
    ∃ p, (searchNearbyFishingPlaces chennaiFallback
        [⟨"fishing marina harbor", POIType.marina⟩] [.ok [marinaPlace]]).fishingPOIs
        = some [p] ∧
      p.id = 0 ∧
      p.distance = calculateDistance chennaiFallback ⟨13.10, 80.30⟩ ∧
      ¬ |p.distance - 2.9| < 0.5 := by
  refine ⟨poiOf chennaiFallback 0 ⟨"fishing marina harbor", POIType.marina⟩ 0
      marinaPlace ⟨13.10, 80.30⟩, ?_, rfl, rfl, ?_⟩
  · rw [published_eq chennaiFallback [⟨"fishing marina harbor", POIType.marina⟩]
      [.ok [marinaPlace]] rfl (by simp)]
    rfl
  · intro habs
    rcases abs_lt.mp habs with ⟨h1, h2⟩
    have hd : (poiOf chennaiFallback 0 ⟨"fishing marina harbor", POIType.marina⟩ 0
        marinaPlace ⟨13.10, 80.30⟩).distance
        = calculateDistance chennaiFallback ⟨13.10, 80.30⟩ := rfl
    rw [hd] at h2
    linarith [endToEndDistance_bounds.1]

/-- C9 amended: in the end-to-end scenario the published POI has `id = 0` and
`distanceKm ≈ 3.71` (within 0.05) as computed by the haversine formula, not
≈ 2.9. -/
theorem endToEndDistanceAmended :
    ∃ p, (searchNearbyFishingPlaces chennaiFallback
        [⟨"fishing marina harbor", POIType.marina⟩] [.ok [marinaPlace]]).fishingPOIs
        = some [p] ∧
      p.id = 0 ∧
      p.distance = calculateDistance chennaiFallback ⟨13.10, 80.30⟩ ∧
      |p.distance - 3.71| < 0.05 := by
  refine ⟨poiOf chennaiFallback 0 ⟨"fishing marina harbor", POIType.marina⟩ 0
      marinaPlace ⟨13.10, 80.30⟩, ?_, rfl, rfl, ?_⟩
  · rw [published_eq chennaiFallback [⟨"fishing marina harbor", POIType.marina⟩]
      [.ok [marinaPlace]] rfl (by simp)]
    rfl
  · have hd : (poiOf chennaiFallback 0 ⟨"fishing marina harbor", POIType.marina⟩ 0
        marinaPlace ⟨13.10, 80.30⟩).distance
        = calculateDistance chennaiFallback ⟨13.10, 80.30⟩ := rfl
    rw [hd]
    rw [abs_lt]
    constructor
    · linarith [endToEndDistance_bounds.1]
    · linarith [endToEndDistance_bounds.2]

end FisherMan
